import Mathlib

/-!
Verification of the attendance marking and aggregation engine of the
Attendance_Management repository (Django app `attendance`).

The embedding models the persisted store as explicit data:
* `Student`, `Subject`, `Attendance` mirror `attendance/models.py`;
* the ledger (`Attendance` table) is a `List Attendance`, with the
  `unique_together` constraint on student, subject and date expressed
  as the `UniqueTriples` predicate on triple keys;
* Django ORM calls are explicit functions on the ledger:
  `objects_create` (raw `Attendance.objects.create`, which enforces only the
  database uniqueness constraint), `update_or_create`
  (`Attendance.objects.update_or_create` keyed on student/subject/date),
  `clean` / `full_clean` / `save_model` (model validation and the admin
  save path of `attendance/admin.py`);
* the marking view `mark_attendance` of `attendance/views.py` is a fold
  over the eligible roster; the `IntegrityError` a per-student upsert can
  hit in a concurrent race is injected through a `fails` oracle telling
  which upserts the environment makes fail;
* percentages (`models.Student.get_attendance_percentage` and the
  percentage computations of `views.py`) are computed over `ℚ`, with the
  Python builtin `round` (half to even) modelled exactly on rationals.

Dates are abstract day numbers (`Nat`); primary keys are `Nat`.
-/

namespace AttendanceManagement

/-- Department choices of `models.Student.DEPARTMENT_CHOICES`
(models.py lines 20-27): a closed enumeration. -/
inductive Department
  | CSE | ECE | MECH | CIVIL | BA | IT
deriving DecidableEq, Repr

/-- `models.Student` (models.py lines 10-55): primary key `id`, unique
`roll_number`, display `name`, `department`, academic `year` (1-4). The
optional login link is irrelevant to the marking/aggregation engine and
is omitted. -/
structure Student where
  id : Nat
  roll_number : String
  name : String
  department : Department
  year : Nat
deriving DecidableEq, Repr

/-- `models.Subject` (models.py lines 77-102): primary key `id`, unique
`subject_code`, display `subject_name`, `department`, `year`. -/
structure Subject where
  id : Nat
  subject_code : String
  subject_name : String
  department : Department
  year : Nat
deriving DecidableEq, Repr

/-- `models.Attendance.STATUS_CHOICES` (models.py lines 116-119). -/
inductive Status
  | P | A
deriving DecidableEq, Repr

/-- `models.Attendance` (models.py lines 105-151): one row of the
attendance table, referencing a student and a subject, with a `date` and
a `status`. -/
structure Attendance where
  student : Student
  subject : Subject
  date : Nat
  status : Status
deriving DecidableEq, Repr

/-- The attendance table: the persisted collection of `Attendance` rows,
in insertion order. -/
abbrev Ledger := List Attendance

/-- The composite key of the `unique_together` constraint on student,
subject and date (models.py line 134): foreign keys compare by
primary key. -/
def tripleKey (r : Attendance) : Nat × Nat × Nat :=
  (r.student.id, r.subject.id, r.date)

/-- Whether some row of the ledger has the given (student, subject, date)
key: the lookup the database performs for the uniqueness constraint and
that `update_or_create` performs to decide between update and create. -/
def hasTriple (L : Ledger) (k : Nat × Nat × Nat) : Bool :=
  L.any (fun r => decide (tripleKey r = k))

/-- The row of the ledger with the given key, if any (first match). -/
def findRecord (L : Ledger) (k : Nat × Nat × Nat) : Option Attendance :=
  L.find? (fun r => decide (tripleKey r = k))

/-- The database invariant enforced by `unique_together` (models.py line
134): no two rows share a (student, subject, date) key. -/
def UniqueTriples (L : Ledger) : Prop :=
  L.Pairwise (fun a b => tripleKey a ≠ tripleKey b)

instance (L : Ledger) : Decidable (UniqueTriples L) := by
  unfold UniqueTriples; infer_instance

/-- The single database error the repository handles
(`django.db.IntegrityError`, raised on a uniqueness violation; see
tests.py lines 96-104 and the `except IntegrityError` of views.py line
374). -/
inductive DbError
  | IntegrityError
deriving DecidableEq, Repr

/-- `Attendance.objects.create(...)` as used in tests.py lines 77-104: a
raw insert. It runs no model validation (`clean` is not called by
`objects.create`); only the database `unique_together` constraint is
enforced, rejecting a second row for an existing key with
`IntegrityError`. -/
def objects_create (L : Ledger) (r : Attendance) : Except DbError Ledger :=
  if hasTriple L (tripleKey r) then .error .IntegrityError
  else .ok (L ++ [r])

/-- Overwrite the status of the rows with the given key (the UPDATE half
of `update_or_create`). -/
def setStatus (L : Ledger) (k : Nat × Nat × Nat) (st : Status) : Ledger :=
  L.map (fun r => if tripleKey r = k then { r with status := st } else r)

/-- The call `Attendance.objects.update_or_create` keyed on student,
subject and date with the status as the defaulted field (views.py lines
367-372): if a row with the key exists its status is overwritten,
otherwise a new row is inserted. Returns the new ledger and the
`created` flag. -/
def update_or_create (L : Ledger) (s : Student) (subj : Subject) (d : Nat)
    (st : Status) : Ledger × Bool :=
  if hasTriple L (s.id, subj.id, d) then
    (setStatus L (s.id, subj.id, d) st, false)
  else
    (L ++ [⟨s, subj, d, st⟩], true)

/-- The eligibility rule: the condition checked by `Attendance.clean`
(models.py lines 143-151) and used as the roster filter of views.py
lines 349-352 — student and subject share department and year. -/
def isEligible (s : Student) (subj : Subject) : Bool :=
  decide (s.department = subj.department) && decide (s.year = subj.year)

/-- Lexicographic comparison of character lists: the order the database
uses for a `CharField` (byte-wise on ASCII identifiers such as roll
numbers and subject codes). -/
def charListLe : List Char → List Char → Bool
  | [], _ => true
  | _ :: _, [] => false
  | a :: as, b :: bs =>
    if a < b then true else if b < a then false else charListLe as bs

/-- String comparison used by `order_by` on identifier columns. -/
def str_le (a b : String) : Bool :=
  charListLe a.data b.data

/-- The eligible roster query of `mark_attendance` (views.py lines
349-352): `Student.objects.filter(department=subject.department,
year=subject.year).order_by('roll_number')`. -/
def computeEligibleRoster (students : List Student) (subj : Subject) :
    List Student :=
  (students.filter
      (fun s => decide (s.department = subj.department) &&
                decide (s.year = subj.year))).insertionSort
    (fun a b => str_le a.roll_number b.roll_number = true)

/-- Presence lookup of the marking loop (views.py line 363): the POST
value for the per-student checkbox key is compared with the literal
"on". The submitted form is a list of (student id, value) pairs; a
missing key compares unequal to "on", so a student absent from the map
counts as not present. -/
def post_is_present (post : List (Nat × String)) (sid : Nat) : Bool :=
  match post.lookup sid with
  | some v => decide (v = "on")
  | none => false

/-- The status written for a student by the marking loop (views.py line
364): P when present, A otherwise. -/
def mark_status (post : List (Nat × String)) (s : Student) : Status :=
  if post_is_present post s.id then Status.P else Status.A

/-- Outcome of a `mark_attendance` submission: the updated ledger and the
`success_count` / `error_count` of views.py lines 359-380. -/
structure MarkResult where
  ledger : Ledger
  success_count : Nat
  error_count : Nat
deriving DecidableEq, Repr

/-- One iteration of the marking loop (views.py lines 362-375): read the
presence flag, attempt the upsert inside `try/except IntegrityError`. A
`fails` oracle tells for which students the environment (a concurrent
writer racing on the same triple) makes the upsert raise
`IntegrityError`; for those the ledger is unchanged and `error_count` is
incremented, otherwise the upsert lands and `success_count` is
incremented. -/
def markStep (subj : Subject) (d : Nat) (post : List (Nat × String))
    (fails : Nat → Bool) (acc : MarkResult) (s : Student) : MarkResult :=
  if fails s.id then
    { acc with error_count := acc.error_count + 1 }
  else
    { acc with
      ledger := (update_or_create acc.ledger s subj d (mark_status post s)).1,
      success_count := acc.success_count + 1 }

/-- The `submit_attendance` branch of `mark_attendance` (views.py lines
349-380), with the race oracle made explicit: compute the eligible
roster; if it is empty the view returns with a warning and touches
nothing (views.py lines 354-356); otherwise fold the marking loop over
the roster starting from zero counters. -/
def mark_attendance_with_races (students : List Student) (subj : Subject)
    (d : Nat) (post : List (Nat × String)) (fails : Nat → Bool)
    (L : Ledger) : MarkResult :=
  if (computeEligibleRoster students subj).isEmpty then
    { ledger := L, success_count := 0, error_count := 0 }
  else
    (computeEligibleRoster students subj).foldl (markStep subj d post fails)
      { ledger := L, success_count := 0, error_count := 0 }

/-- `mark_attendance` in the absence of concurrent writers: no upsert
raises `IntegrityError`. -/
def mark_attendance (students : List Student) (subj : Subject) (d : Nat)
    (post : List (Nat × String)) (L : Ledger) : MarkResult :=
  mark_attendance_with_races students subj d post (fun _ => false) L

/-- The existing-marks prefill of the form (views.py lines 384-386): the
mapping from student id to status built from the rows of the given
subject and date. -/
def get_existing_marks (L : Ledger) (subj : Subject) (d : Nat) :
    List (Nat × Status) :=
  (L.filter (fun r => decide (r.subject.id = subj.id) && decide (r.date = d))).map
    (fun r => (r.student.id, r.status))

/-- `Attendance.clean` (models.py lines 143-151): raises
`ValidationError` unless student and subject share department and
year. -/
def clean (r : Attendance) : Except String Unit :=
  if r.student.department ≠ r.subject.department then
    .error "Student and Subject must be from the same department"
  else if r.student.year ≠ r.subject.year then
    .error "Student and Subject must be from the same year"
  else .ok ()

/-- `obj.full_clean()` as invoked by the admin save path (admin.py line
67): runs the model method `clean` and validates the `unique_together`
constraint against the table, raising `ValidationError` on either. -/
def full_clean (L : Ledger) (r : Attendance) : Except String Unit :=
  match clean r with
  | .error e => .error e
  | .ok _ =>
    if hasTriple L (tripleKey r) then
      .error "Attendance with this Student, Subject and Date already exists."
    else .ok ()

/-- `AttendanceAdmin.save_model` (admin.py lines 65-71) for a new row:
`obj.full_clean()` first; on `ValidationError` the exception is caught,
an error message is shown and the row is NOT saved; otherwise the row is
inserted. Returns the ledger and the error message, if any. -/
def save_model (L : Ledger) (r : Attendance) : Ledger × Option String :=
  match full_clean L r with
  | .error e => (L, some e)
  | .ok _ => (L ++ [r], none)

/-- The Python builtin `round` to the nearest integer on an exact rational:
round half to even. -/
def roundHalfToEven (x : ℚ) : ℤ :=
  let f := ⌊x⌋
  if x - f < 1/2 then f
  else if 1/2 < x - f then f + 1
  else if f % 2 = 0 then f else f + 1

/-- The Python call `round(x, 2)` on an exact rational: round half to even at
two decimal places. -/
def pyround2 (x : ℚ) : ℚ :=
  (roundHalfToEven (x * 100) : ℚ) / 100

/-- `Attendance.objects.filter(student=student).count()`: all attendance
rows of one student. -/
def total_records (L : Ledger) (student : Student) : Nat :=
  (L.filter (fun r => decide (r.student.id = student.id))).length

/-- Count of the present rows of one student: the filter on student and
status P (views.py line 99). -/
def present_records (L : Ledger) (student : Student) : Nat :=
  (L.filter (fun r => decide (r.student.id = student.id) &&
    decide (r.status = Status.P))).length

/-- `Attendance.objects.filter(student=student, subject=subject).count()`. -/
def total_records_subject (L : Ledger) (student : Student)
    (subj : Subject) : Nat :=
  (L.filter (fun r => decide (r.student.id = student.id) &&
    decide (r.subject.id = subj.id))).length

/-- Count of the present rows of one student in one subject: the filter
on student, subject and status P (views.py line 114). -/
def present_records_subject (L : Ledger) (student : Student)
    (subj : Subject) : Nat :=
  (L.filter (fun r => decide (r.student.id = student.id) &&
    decide (r.subject.id = subj.id) &&
    decide (r.status = Status.P))).length

/-- `Student.get_attendance_percentage` (models.py lines 57-74): count
the attendance rows of the student (optionally restricted to one subject) and
the present ones among them; return 0 when there are none, else
`round((present / total) * 100, 2)`. -/
def get_attendance_percentage (L : Ledger) (student : Student)
    (subject : Option Subject) : ℚ :=
  match subject with
  | some subj =>
    if (L.filter (fun r => decide (r.student.id = student.id) &&
        decide (r.subject.id = subj.id))).length = 0 then 0
    else
      pyround2
        ((((L.filter (fun r => decide (r.student.id = student.id) &&
            decide (r.subject.id = subj.id) &&
            decide (r.status = Status.P))).length : ℚ) /
          ((L.filter (fun r => decide (r.student.id = student.id) &&
            decide (r.subject.id = subj.id))).length : ℚ)) * 100)
  | none =>
    if (L.filter (fun r => decide (r.student.id = student.id))).length = 0
    then 0
    else
      pyround2
        ((((L.filter (fun r => decide (r.student.id = student.id) &&
            decide (r.status = Status.P))).length : ℚ) /
          ((L.filter (fun r =>
            decide (r.student.id = student.id))).length : ℚ)) * 100)

/-- The overall percentage of the student dashboard (views.py lines
98-104): `round((present_classes / total_classes) * 100, 2)` when
`total_classes > 0`, else 0. -/
def dashboard_attendance_percentage (L : Ledger) (student : Student) : ℚ :=
  let total_classes :=
    (L.filter (fun r => decide (r.student.id = student.id))).length
  let present_classes :=
    (L.filter (fun r => decide (r.student.id = student.id) &&
      decide (r.status = Status.P))).length
  if total_classes > 0 then
    pyround2 (((present_classes : ℚ) / (total_classes : ℚ)) * 100)
  else 0

/-- One row of the per-subject breakdown list built by the dashboard
(views.py lines 121-127). -/
structure SubjectEntry where
  subject : Subject
  total : Nat
  present : Nat
  absent : Nat
  percentage : ℚ
deriving DecidableEq, Repr

/-- The loop body of the per-subject breakdown of the dashboard (views.py
lines 112-127): the counts for one subject, the derived absent count
`total - present`, and the percentage (0 when no rows). -/
def subject_entry (L : Ledger) (student : Student) (subject : Subject) :
    SubjectEntry :=
  { subject := subject
    total := total_records_subject L student subject
    present := present_records_subject L student subject
    absent := total_records_subject L student subject -
      present_records_subject L student subject
    percentage :=
      if total_records_subject L student subject > 0 then
        pyround2 (((present_records_subject L student subject : ℚ) /
          (total_records_subject L student subject : ℚ)) * 100)
      else 0 }

/-- The per-subject breakdown of the student dashboard (views.py lines
109-129): `Subject.objects.filter(department=student.department,
year=student.year)` — ordered by `subject_code` per `Subject.Meta`
(models.py line 96) — with one entry per subject. -/
def dashboard_subject_attendance (subjects : List Subject) (L : Ledger)
    (student : Student) : List SubjectEntry :=
  ((subjects.filter (fun sb => decide (sb.department = student.department) &&
      decide (sb.year = student.year))).insertionSort
    (fun a b => str_le a.subject_code b.subject_code = true)).map
    (subject_entry L student)

/-- One row of the admin percentage report (views.py lines 477-483). -/
structure StudentPercentEntry where
  student : Student
  total_classes : Nat
  present_classes : Nat
  absent_classes : Nat
  percentage : ℚ
deriving DecidableEq, Repr

/-- The per-student row of the `attendance_percentage` view (views.py
lines 468-483): counts over the rows of the student, percentage 0 when there
are none, else `round((present_classes / total_classes) * 100, 2)`. -/
def attendance_percentage_entry (L : Ledger) (student : Student) :
    StudentPercentEntry :=
  let total_classes :=
    (L.filter (fun r => decide (r.student.id = student.id))).length
  let present_classes :=
    (L.filter (fun r => decide (r.student.id = student.id) &&
      decide (r.status = Status.P))).length
  { student := student
    total_classes := total_classes
    present_classes := present_classes
    absent_classes := total_classes - present_classes
    percentage :=
      if total_classes > 0 then
        pyround2 (((present_classes : ℚ) / (total_classes : ℚ)) * 100)
      else 0 }

/-- The percentage function of the specification, for comparison with
the sites above: 0 when `total = 0`, else `round(100 * present / total,
2)` under one fixed rounding mode (half to even). -/
def percentage_spec (present total : Nat) : ℚ :=
  if total = 0 then 0
  else pyround2 (100 * (present : ℚ) / (total : ℚ))

/-! ### The identifier order -/

theorem charListLe_total (as : List Char) :
    ∀ bs, charListLe as bs = true ∨ charListLe bs as = true := by
  induction as with
  | nil => intro bs; left; rfl
  | cons a as ih =>
    intro bs
    cases bs with
    | nil => right; rfl
    | cons b bs =>
      rcases lt_trichotomy a b with h | h | h
      · left
        simp [charListLe, h]
      · subst h
        rcases ih bs with h2 | h2
        · left
          simp [charListLe, lt_irrefl, h2]
        · right
          simp [charListLe, lt_irrefl, h2]
      · right
        simp [charListLe, h]

theorem charListLe_trans (as : List Char) :
    ∀ bs cs, charListLe as bs = true → charListLe bs cs = true →
      charListLe as cs = true := by
  induction as with
  | nil => intro bs cs _ _; rfl
  | cons a as ih =>
    intro bs cs h1 h2
    cases bs with
    | nil => simp [charListLe] at h1
    | cons b bs =>
      cases cs with
      | nil => simp [charListLe] at h2
      | cons c cs =>
        by_cases hab : a < b
        · by_cases hbc : b < c
          · simp [charListLe, lt_trans hab hbc]
          · by_cases hcb : c < b
            · simp [charListLe, hbc, hcb] at h2
            · have hbc2 : b = c := le_antisymm (not_lt.mp hcb) (not_lt.mp hbc)
              subst hbc2
              simp [charListLe, hab]
        · by_cases hba : b < a
          · simp [charListLe, hab, hba] at h1
          · have hab2 : a = b := le_antisymm (not_lt.mp hba) (not_lt.mp hab)
            subst hab2
            simp only [charListLe, lt_irrefl, if_false] at h1
            by_cases hac : a < c
            · simp [charListLe, hac]
            · by_cases hca : c < a
              · simp [charListLe, hac, hca] at h2
              · simp only [charListLe, hac, hca, if_false] at h2 ⊢
                exact ih bs cs h1 h2

theorem charListLe_not_lex (as : List Char) :
    ∀ bs, charListLe as bs = true → ¬ List.Lex (· < ·) bs as := by
  induction as with
  | nil =>
    intro bs _ hlex
    cases hlex
  | cons a as ih =>
    intro bs h hlex
    cases bs with
    | nil => simp [charListLe] at h
    | cons b bs =>
      cases hlex with
      | rel hba =>
        have hab : ¬ a < b := fun hc => lt_asymm hc hba
        simp [charListLe, hab, hba] at h
      | cons htail =>
        simp only [charListLe, lt_irrefl, if_false] at h
        exact ih bs h htail

/-- `str_le` implies the library order on `String`: the roster order is
ascending for the standard string order. -/
theorem str_le_le (a b : String) (h : str_le a b = true) : a ≤ b := by
  rw [String.le_iff_toList_le, ← not_lt]
  intro hlt
  exact charListLe_not_lex a.data b.data h hlt

instance : IsTotal Student
    (fun a b => str_le a.roll_number b.roll_number = true) :=
  ⟨fun a b => charListLe_total a.roll_number.data b.roll_number.data⟩

instance : IsTrans Student
    (fun a b => str_le a.roll_number b.roll_number = true) :=
  ⟨fun _ _ _ h1 h2 => charListLe_trans _ _ _ h1 h2⟩

instance : IsTotal Subject
    (fun a b => str_le a.subject_code b.subject_code = true) :=
  ⟨fun a b => charListLe_total a.subject_code.data b.subject_code.data⟩

instance : IsTrans Subject
    (fun a b => str_le a.subject_code b.subject_code = true) :=
  ⟨fun _ _ _ h1 h2 => charListLe_trans _ _ _ h1 h2⟩

/-! ### Ledger lemmas -/

theorem tripleKey_statusUpdate (k : Nat × Nat × Nat) (st : Status)
    (r : Attendance) :
    tripleKey (if tripleKey r = k then { r with status := st } else r) =
      tripleKey r := by
  split <;> rfl

theorem hasTriple_setStatus (L : Ledger) (k k' : Nat × Nat × Nat)
    (st : Status) :
    hasTriple (setStatus L k st) k' = hasTriple L k' := by
  unfold hasTriple setStatus
  rw [List.any_map]
  congr 1
  funext r
  simp only [Function.comp_apply]
  rw [tripleKey_statusUpdate]

theorem hasTriple_append (L M : Ledger) (k : Nat × Nat × Nat) :
    hasTriple (L ++ M) k = (hasTriple L k || hasTriple M k) := by
  unfold hasTriple
  exact List.any_append

theorem findRecord_append (L M : Ledger) (k : Nat × Nat × Nat) :
    findRecord (L ++ M) k = (findRecord L k).or (findRecord M k) := by
  unfold findRecord
  exact List.find?_append

theorem hasTriple_eq_isSome_findRecord (L : Ledger) (k : Nat × Nat × Nat) :
    hasTriple L k = (findRecord L k).isSome := by
  unfold hasTriple findRecord
  induction L with
  | nil => rfl
  | cons r rest ih =>
    by_cases h : tripleKey r = k
    · simp [List.find?_cons, h]
    · simp [List.find?_cons, h, ih]

theorem findRecord_setStatus_ne (L : Ledger) {k k' : Nat × Nat × Nat}
    (st : Status) (h : k' ≠ k) :
    findRecord (setStatus L k st) k' = findRecord L k' := by
  unfold findRecord setStatus
  rw [List.find?_map]
  have hp : ((fun r => decide (tripleKey r = k')) ∘
      (fun r => if tripleKey r = k then { r with status := st } else r)) =
      fun r => decide (tripleKey r = k') := by
    funext r
    simp only [Function.comp_apply]
    rw [tripleKey_statusUpdate]
  rw [hp]
  rcases hf : List.find? (fun r => decide (tripleKey r = k')) L with _ | r
  · rfl
  · have hk : tripleKey r = k' := by simpa using List.find?_some hf
    have : ¬ tripleKey r = k := by rw [hk]; exact h
    simp [this]

theorem findRecord_setStatus_self (L : Ledger) (k : Nat × Nat × Nat)
    (st : Status) :
    findRecord (setStatus L k st) k =
      (findRecord L k).map (fun r => { r with status := st }) := by
  unfold findRecord setStatus
  rw [List.find?_map]
  have hp : ((fun r => decide (tripleKey r = k)) ∘
      (fun r => if tripleKey r = k then { r with status := st } else r)) =
      fun r => decide (tripleKey r = k) := by
    funext r
    simp only [Function.comp_apply]
    rw [tripleKey_statusUpdate]
  rw [hp]
  rcases hf : List.find? (fun r => decide (tripleKey r = k)) L with _ | r
  · rfl
  · have hk : tripleKey r = k := by simpa using List.find?_some hf
    simp [hk]

theorem setStatus_of_not_hasTriple (L : Ledger) (k : Nat × Nat × Nat)
    (st : Status) (h : hasTriple L k = false) :
    setStatus L k st = L := by
  have h1 : ∀ r ∈ L, tripleKey r ≠ k := by
    intro r hr
    have := List.any_eq_false.mp h r hr
    simpa using this
  unfold setStatus
  have h2 : ∀ r ∈ L,
      (if tripleKey r = k then { r with status := st } else r) = id r := by
    intro r hr
    simp [h1 r hr]
  rw [List.map_congr_left h2, List.map_id]

theorem update_or_create_of_hasTriple {L : Ledger} {s : Student}
    {subj : Subject} {d : Nat} (st : Status)
    (h : hasTriple L (s.id, subj.id, d) = true) :
    update_or_create L s subj d st =
      (setStatus L (s.id, subj.id, d) st, false) := by
  unfold update_or_create
  rw [if_pos h]

theorem update_or_create_of_not_hasTriple {L : Ledger} {s : Student}
    {subj : Subject} {d : Nat} (st : Status)
    (h : hasTriple L (s.id, subj.id, d) = false) :
    update_or_create L s subj d st = (L ++ [⟨s, subj, d, st⟩], true) := by
  unfold update_or_create
  rw [if_neg (by simp [h])]

theorem hasTriple_update_or_create (L : Ledger) (s : Student)
    (subj : Subject) (d : Nat) (st : Status) (k : Nat × Nat × Nat) :
    hasTriple (update_or_create L s subj d st).1 k =
      (hasTriple L k || decide ((s.id, subj.id, d) = k)) := by
  by_cases h : hasTriple L (s.id, subj.id, d) = true
  · rw [update_or_create_of_hasTriple st h]
    simp only
    rw [hasTriple_setStatus]
    by_cases hk : (s.id, subj.id, d) = k
    · subst hk
      rw [h]
      simp
    · simp [hk]
  · have hf : hasTriple L (s.id, subj.id, d) = false := by
      revert h
      cases hasTriple L (s.id, subj.id, d) <;> simp
    rw [update_or_create_of_not_hasTriple st hf]
    simp only
    rw [hasTriple_append]
    congr 1
    simp [hasTriple, tripleKey]

theorem findRecord_update_or_create_ne {L : Ledger} {s : Student}
    {subj : Subject} {d : Nat} (st : Status) {k : Nat × Nat × Nat}
    (h : k ≠ (s.id, subj.id, d)) :
    findRecord (update_or_create L s subj d st).1 k = findRecord L k := by
  by_cases hh : hasTriple L (s.id, subj.id, d) = true
  · rw [update_or_create_of_hasTriple st hh]
    exact findRecord_setStatus_ne L st h
  · have hf : hasTriple L (s.id, subj.id, d) = false := by
      revert hh
      cases hasTriple L (s.id, subj.id, d) <;> simp
    rw [update_or_create_of_not_hasTriple st hf]
    simp only
    rw [findRecord_append]
    have hone : findRecord [⟨s, subj, d, st⟩] k = none := by
      have : ¬ ((s.id, subj.id, d) = k) := fun hc => h hc.symm
      simp [findRecord, tripleKey, this]
    rw [hone]
    cases findRecord L k <;> rfl

theorem findRecord_update_or_create_self (L : Ledger) (s : Student)
    (subj : Subject) (d : Nat) (st : Status) :
    findRecord (update_or_create L s subj d st).1 (s.id, subj.id, d) =
      some (match findRecord L (s.id, subj.id, d) with
            | some r => { r with status := st }
            | none => ⟨s, subj, d, st⟩) := by
  by_cases hh : hasTriple L (s.id, subj.id, d) = true
  · rw [update_or_create_of_hasTriple st hh]
    simp only
    rw [findRecord_setStatus_self]
    have hs : (findRecord L (s.id, subj.id, d)).isSome = true := by
      rw [← hasTriple_eq_isSome_findRecord]
      exact hh
    rcases hf : findRecord L (s.id, subj.id, d) with _ | r
    · rw [hf] at hs
      simp at hs
    · simp
  · have hf : hasTriple L (s.id, subj.id, d) = false := by
      revert hh
      cases hasTriple L (s.id, subj.id, d) <;> simp
    have hnone : findRecord L (s.id, subj.id, d) = none := by
      have := hasTriple_eq_isSome_findRecord L (s.id, subj.id, d)
      rw [hf] at this
      rcases h2 : findRecord L (s.id, subj.id, d) with _ | r
      · rfl
      · rw [h2] at this
        simp at this
    rw [update_or_create_of_not_hasTriple st hf]
    simp only
    rw [findRecord_append, hnone]
    simp [findRecord, tripleKey]

theorem setStatus_setStatus_self (L : Ledger) (k : Nat × Nat × Nat)
    (st1 st2 : Status) :
    setStatus (setStatus L k st1) k st2 = setStatus L k st2 := by
  unfold setStatus
  rw [List.map_map]
  apply List.map_congr_left
  intro r _
  by_cases h : tripleKey r = k
  · have h' : (r.student.id, r.subject.id, r.date) = k := h
    simp [Function.comp, tripleKey, h']
  · have h' : ¬ ((r.student.id, r.subject.id, r.date) = k) := h
    simp [Function.comp, tripleKey, h']

theorem setStatus_comm {k1 k2 : Nat × Nat × Nat} (h : k1 ≠ k2) (L : Ledger)
    (st1 st2 : Status) :
    setStatus (setStatus L k1 st1) k2 st2 =
      setStatus (setStatus L k2 st2) k1 st1 := by
  unfold setStatus
  rw [List.map_map, List.map_map]
  apply List.map_congr_left
  intro r _
  by_cases h1 : tripleKey r = k1 <;> by_cases h2 : tripleKey r = k2
  · exact absurd (h1.symm.trans h2) h
  · have h1' : (r.student.id, r.subject.id, r.date) = k1 := h1
    have h2' : ¬ ((r.student.id, r.subject.id, r.date) = k2) := h2
    simp [Function.comp, tripleKey, h1', h2', h, Ne.symm h]
  · have h1' : ¬ ((r.student.id, r.subject.id, r.date) = k1) := h1
    have h2' : (r.student.id, r.subject.id, r.date) = k2 := h2
    simp [Function.comp, tripleKey, h1', h2', h, Ne.symm h]
  · have h1' : ¬ ((r.student.id, r.subject.id, r.date) = k1) := h1
    have h2' : ¬ ((r.student.id, r.subject.id, r.date) = k2) := h2
    simp [Function.comp, tripleKey, h1', h2']

theorem update_or_create_twice (L : Ledger) (s : Student) (subj : Subject)
    (d : Nat) (st1 st2 : Status) :
    (update_or_create (update_or_create L s subj d st1).1 s subj d st2).1 =
      (update_or_create L s subj d st2).1 := by
  by_cases hh : hasTriple L (s.id, subj.id, d) = true
  · rw [update_or_create_of_hasTriple st1 hh]
    simp only
    rw [update_or_create_of_hasTriple st2 (by rw [hasTriple_setStatus]; exact hh),
      update_or_create_of_hasTriple st2 hh]
    exact setStatus_setStatus_self L (s.id, subj.id, d) st1 st2
  · have hf : hasTriple L (s.id, subj.id, d) = false := by
      revert hh
      cases hasTriple L (s.id, subj.id, d) <;> simp
    rw [update_or_create_of_not_hasTriple st1 hf]
    simp only
    have hh2 : hasTriple (L ++ [⟨s, subj, d, st1⟩]) (s.id, subj.id, d) = true := by
      rw [hasTriple_append, hf]
      simp [hasTriple, tripleKey]
    rw [update_or_create_of_hasTriple st2 hh2,
      update_or_create_of_not_hasTriple st2 hf]
    simp only
    unfold setStatus
    rw [List.map_append]
    have hL : List.map
        (fun r => if tripleKey r = (s.id, subj.id, d) then { r with status := st2 } else r) L
        = L := setStatus_of_not_hasTriple L (s.id, subj.id, d) st2 hf
    rw [hL]
    simp [tripleKey]

theorem update_or_create_setStatus_comm {k : Nat × Nat × Nat} {s : Student}
    {subj : Subject} {d : Nat} (h : k ≠ (s.id, subj.id, d)) (L : Ledger)
    (st st' : Status) :
    (update_or_create (setStatus L k st') s subj d st).1 =
      setStatus (update_or_create L s subj d st).1 k st' := by
  by_cases hh : hasTriple L (s.id, subj.id, d) = true
  · rw [update_or_create_of_hasTriple st
      (by rw [hasTriple_setStatus]; exact hh),
      update_or_create_of_hasTriple st hh]
    simp only
    exact setStatus_comm (fun hc => h hc) L st' st
  · have hf : hasTriple L (s.id, subj.id, d) = false := by
      revert hh
      cases hasTriple L (s.id, subj.id, d) <;> simp
    rw [update_or_create_of_not_hasTriple st
      (by rw [hasTriple_setStatus]; exact hf),
      update_or_create_of_not_hasTriple st hf]
    simp only
    unfold setStatus
    rw [List.map_append]
    congr 1
    have : ¬ ((s.id, subj.id, d) = k) := fun hc => h hc.symm
    simp [tripleKey, this]

/-! ### The marking loop as a fold on the ledger -/

/-- The effect of one marking-loop iteration on the ledger alone. -/
def ledgerStep (subj : Subject) (d : Nat) (post : List (Nat × String))
    (fails : Nat → Bool) (L : Ledger) (s : Student) : Ledger :=
  if fails s.id then L
  else (update_or_create L s subj d (mark_status post s)).1

/-- The ledger produced by running the marking loop over a roster. -/
def markLedger (subj : Subject) (d : Nat) (post : List (Nat × String))
    (fails : Nat → Bool) (roster : List Student) (L : Ledger) : Ledger :=
  roster.foldl (ledgerStep subj d post fails) L

theorem markStep_ledger (subj : Subject) (d : Nat)
    (post : List (Nat × String)) (fails : Nat → Bool) (acc : MarkResult)
    (s : Student) :
    (markStep subj d post fails acc s).ledger =
      ledgerStep subj d post fails acc.ledger s := by
  unfold markStep ledgerStep
  by_cases h : fails s.id = true
  · simp [h]
  · simp [h, mark_status]

theorem foldl_markStep_ledger (subj : Subject) (d : Nat)
    (post : List (Nat × String)) (fails : Nat → Bool)
    (roster : List Student) (acc : MarkResult) :
    (roster.foldl (markStep subj d post fails) acc).ledger =
      markLedger subj d post fails roster acc.ledger := by
  induction roster generalizing acc with
  | nil => rfl
  | cons s rest ih =>
    rw [List.foldl_cons]
    unfold markLedger
    rw [List.foldl_cons]
    rw [ih (markStep subj d post fails acc s)]
    unfold markLedger
    rw [markStep_ledger]

theorem foldl_markStep_success (subj : Subject) (d : Nat)
    (post : List (Nat × String)) (fails : Nat → Bool)
    (roster : List Student) (acc : MarkResult) :
    (roster.foldl (markStep subj d post fails) acc).success_count =
      acc.success_count + (roster.filter (fun s => !fails s.id)).length := by
  induction roster generalizing acc with
  | nil => rfl
  | cons s rest ih =>
    rw [List.foldl_cons, ih]
    by_cases h : fails s.id = true
    · simp [markStep, List.filter_cons, h]
    · have hf : fails s.id = false := by
        revert h
        cases fails s.id <;> simp
      simp [markStep, List.filter_cons, hf]
      omega

theorem foldl_markStep_error (subj : Subject) (d : Nat)
    (post : List (Nat × String)) (fails : Nat → Bool)
    (roster : List Student) (acc : MarkResult) :
    (roster.foldl (markStep subj d post fails) acc).error_count =
      acc.error_count + (roster.filter (fun s => fails s.id)).length := by
  induction roster generalizing acc with
  | nil => rfl
  | cons s rest ih =>
    rw [List.foldl_cons, ih]
    by_cases h : fails s.id = true
    · simp [markStep, List.filter_cons, h]
      omega
    · have hf : fails s.id = false := by
        revert h
        cases fails s.id <;> simp
      simp [markStep, List.filter_cons, hf]

theorem hasTriple_ledgerStep_mono (subj : Subject) (d : Nat)
    (post : List (Nat × String)) (fails : Nat → Bool) (L : Ledger)
    (s : Student) (k : Nat × Nat × Nat) (h : hasTriple L k = true) :
    hasTriple (ledgerStep subj d post fails L s) k = true := by
  unfold ledgerStep
  split
  · exact h
  · rw [hasTriple_update_or_create, h]
    rfl

theorem hasTriple_markLedger_mono (subj : Subject) (d : Nat)
    (post : List (Nat × String)) (fails : Nat → Bool)
    (roster : List Student) (L : Ledger) (k : Nat × Nat × Nat)
    (h : hasTriple L k = true) :
    hasTriple (markLedger subj d post fails roster L) k = true := by
  induction roster generalizing L with
  | nil => exact h
  | cons s rest ih =>
    unfold markLedger
    rw [List.foldl_cons]
    exact ih _ (hasTriple_ledgerStep_mono subj d post fails L s k h)

theorem findRecord_ledgerStep_ne (subj : Subject) (d : Nat)
    (post : List (Nat × String)) (fails : Nat → Bool) (L : Ledger)
    {s : Student} {k : Nat × Nat × Nat} (h : k ≠ (s.id, subj.id, d)) :
    findRecord (ledgerStep subj d post fails L s) k = findRecord L k := by
  unfold ledgerStep
  split
  · rfl
  · exact findRecord_update_or_create_ne _ h

theorem findRecord_markLedger_other (subj : Subject) (d : Nat)
    (post : List (Nat × String)) (fails : Nat → Bool)
    {roster : List Student} (L : Ledger) {k : Nat × Nat × Nat}
    (hk : ∀ t ∈ roster, k ≠ (t.id, subj.id, d)) :
    findRecord (markLedger subj d post fails roster L) k = findRecord L k := by
  induction roster generalizing L with
  | nil => rfl
  | cons s rest ih =>
    unfold markLedger
    rw [List.foldl_cons]
    have h1 := ih (ledgerStep subj d post fails L s)
      (fun t ht => hk t (List.mem_cons_of_mem s ht))
    unfold markLedger at h1
    rw [h1]
    exact findRecord_ledgerStep_ne subj d post fails L (hk s (List.mem_cons_self s rest))

theorem ledgerStep_setStatus_comm (subj : Subject) (d : Nat)
    (post : List (Nat × String)) (fails : Nat → Bool) (L : Ledger)
    {s : Student} {k : Nat × Nat × Nat} (h : k ≠ (s.id, subj.id, d))
    (st' : Status) :
    ledgerStep subj d post fails (setStatus L k st') s =
      setStatus (ledgerStep subj d post fails L s) k st' := by
  unfold ledgerStep
  split
  · rfl
  · exact update_or_create_setStatus_comm h L (mark_status post s) st'

theorem markLedger_setStatus_comm (subj : Subject) (d : Nat)
    (post : List (Nat × String)) (fails : Nat → Bool)
    {roster : List Student} (L : Ledger) {k : Nat × Nat × Nat}
    (hk : ∀ t ∈ roster, k ≠ (t.id, subj.id, d)) (st' : Status) :
    markLedger subj d post fails roster (setStatus L k st') =
      setStatus (markLedger subj d post fails roster L) k st' := by
  induction roster generalizing L with
  | nil => rfl
  | cons s rest ih =>
    unfold markLedger
    rw [List.foldl_cons, List.foldl_cons]
    rw [ledgerStep_setStatus_comm subj d post fails L
      (hk s (List.mem_cons_self s rest)) st']
    have h1 := ih (ledgerStep subj d post fails L s)
      (fun t ht => hk t (List.mem_cons_of_mem s ht))
    unfold markLedger at h1
    exact h1

theorem ledgerStep_no_races (subj : Subject) (d : Nat)
    (post : List (Nat × String)) (L : Ledger) (s : Student) :
    ledgerStep subj d post (fun _ => false) L s =
      (update_or_create L s subj d (mark_status post s)).1 := by
  unfold ledgerStep
  simp

theorem markLedger_overwrite (subj : Subject) (d : Nat)
    (post1 post2 : List (Nat × String)) (roster : List Student) (L : Ledger)
    (hnd : (roster.map (fun s => s.id)).Nodup) :
    markLedger subj d post2 (fun _ => false) roster
      (markLedger subj d post1 (fun _ => false) roster L) =
    markLedger subj d post2 (fun _ => false) roster L := by
  induction roster generalizing L with
  | nil => rfl
  | cons s rest ih =>
    rw [List.map_cons, List.nodup_cons] at hnd
    obtain ⟨hs, hrest⟩ := hnd
    have hkeys : ∀ t ∈ rest, (s.id, subj.id, d) ≠ (t.id, subj.id, d) := by
      intro t ht hc
      apply hs
      have : s.id = t.id := congrArg Prod.fst hc
      rw [this]
      exact List.mem_map_of_mem (fun u => u.id) ht
    show markLedger subj d post2 (fun _ => false) (s :: rest)
        (markLedger subj d post1 (fun _ => false) (s :: rest) L) = _
    unfold markLedger
    rw [List.foldl_cons, List.foldl_cons, List.foldl_cons]
    have h1 : hasTriple (ledgerStep subj d post1 (fun _ => false) L s)
        (s.id, subj.id, d) = true := by
      rw [ledgerStep_no_races, hasTriple_update_or_create]
      simp
    have h2 : hasTriple
        (markLedger subj d post1 (fun _ => false) rest
          (ledgerStep subj d post1 (fun _ => false) L s))
        (s.id, subj.id, d) = true :=
      hasTriple_markLedger_mono subj d post1 _ rest _ _ h1
    have hstep2 : ledgerStep subj d post2 (fun _ => false)
        (markLedger subj d post1 (fun _ => false) rest
          (ledgerStep subj d post1 (fun _ => false) L s)) s =
        setStatus
          (markLedger subj d post1 (fun _ => false) rest
            (ledgerStep subj d post1 (fun _ => false) L s))
          (s.id, subj.id, d) (mark_status post2 s) := by
      rw [ledgerStep_no_races, update_or_create_of_hasTriple _ h2]
    have hcomm :
        setStatus
          (markLedger subj d post1 (fun _ => false) rest
            (ledgerStep subj d post1 (fun _ => false) L s))
          (s.id, subj.id, d) (mark_status post2 s) =
        markLedger subj d post1 (fun _ => false) rest
          (setStatus (ledgerStep subj d post1 (fun _ => false) L s)
            (s.id, subj.id, d) (mark_status post2 s)) :=
      (markLedger_setStatus_comm subj d post1 (fun _ => false) _
        hkeys (mark_status post2 s)).symm
    have hbase :
        setStatus (ledgerStep subj d post1 (fun _ => false) L s)
          (s.id, subj.id, d) (mark_status post2 s) =
        ledgerStep subj d post2 (fun _ => false) L s := by
      have h1' := h1
      rw [ledgerStep_no_races] at h1'
      rw [ledgerStep_no_races, ledgerStep_no_races]
      rw [← update_or_create_twice L s subj d (mark_status post1 s)
        (mark_status post2 s)]
      rw [update_or_create_of_hasTriple _ h1']
    have hfold2 :
        List.foldl (ledgerStep subj d post2 (fun _ => false))
          (ledgerStep subj d post2 (fun _ => false)
            (List.foldl (ledgerStep subj d post1 (fun _ => false))
              (ledgerStep subj d post1 (fun _ => false) L s) rest) s) rest =
        List.foldl (ledgerStep subj d post2 (fun _ => false))
          (markLedger subj d post1 (fun _ => false) rest
            (ledgerStep subj d post2 (fun _ => false) L s)) rest := by
      rw [show List.foldl (ledgerStep subj d post1 (fun _ => false))
          (ledgerStep subj d post1 (fun _ => false) L s) rest =
          markLedger subj d post1 (fun _ => false) rest
            (ledgerStep subj d post1 (fun _ => false) L s) from rfl]
      rw [hstep2, hcomm, hbase]
    rw [hfold2]
    have := ih (ledgerStep subj d post2 (fun _ => false) L s) hrest
    unfold markLedger at this
    exact this

/-- The roll-number ordering and the filter preserve distinctness of
primary keys: if the student table has distinct ids, so has the eligible
roster. -/
theorem roster_ids_nodup (students : List Student) (subj : Subject)
    (h : (students.map (fun s => s.id)).Nodup) :
    ((computeEligibleRoster students subj).map (fun s => s.id)).Nodup := by
  unfold computeEligibleRoster
  have hperm := List.perm_insertionSort
    (fun a b => str_le a.roll_number b.roll_number = true)
    (students.filter (fun s => decide (s.department = subj.department) &&
      decide (s.year = subj.year)))
  have hmap := hperm.map (fun s => s.id)
  have hfil : ((students.filter (fun s => decide (s.department = subj.department) &&
      decide (s.year = subj.year))).map (fun s => s.id)).Nodup :=
    List.Nodup.sublist ((List.filter_sublist students).map (fun s => s.id)) h
  exact hmap.nodup_iff.mpr hfil

/-- After the marking loop, every roster student whose upsert did not hit
the race has a row for (student, subject, date) whose status is the one
computed from the presence map. -/
theorem findRecord_markLedger_self (subj : Subject) (d : Nat)
    (post : List (Nat × String)) (fails : Nat → Bool) {roster : List Student}
    (L : Ledger) {s : Student}
    (hnd : (roster.map (fun u => u.id)).Nodup) (hmem : s ∈ roster)
    (hok : fails s.id = false) :
    ∃ r, findRecord (markLedger subj d post fails roster L)
        (s.id, subj.id, d) = some r ∧ r.status = mark_status post s := by
  induction roster generalizing L with
  | nil => cases hmem
  | cons t rest ih =>
    rw [List.map_cons, List.nodup_cons] at hnd
    obtain ⟨ht, hrest⟩ := hnd
    unfold markLedger
    rw [List.foldl_cons]
    have hfold : List.foldl (ledgerStep subj d post fails)
        (ledgerStep subj d post fails L t) rest =
        markLedger subj d post fails rest (ledgerStep subj d post fails L t) :=
      rfl
    rcases List.mem_cons.mp hmem with heq | hmemr
    · subst heq
      have hothers : ∀ u ∈ rest, (s.id, subj.id, d) ≠ (u.id, subj.id, d) := by
        intro u hu hc
        apply ht
        have : s.id = u.id := congrArg Prod.fst hc
        rw [this]
        exact List.mem_map_of_mem (fun v => v.id) hu
      rw [hfold, findRecord_markLedger_other subj d post fails _ hothers]
      unfold ledgerStep
      rw [if_neg (by simp [hok])]
      rw [findRecord_update_or_create_self]
      rcases findRecord L (s.id, subj.id, d) with _ | r0
      · exact ⟨_, rfl, rfl⟩
      · exact ⟨_, rfl, rfl⟩
    · rw [hfold]
      exact ih (ledgerStep subj d post fails L t) hrest hmemr

/-! ### Sample data for concrete checks -/

/-- Sample student matching the test fixture of tests.py lines 62-67. -/
def alice : Student :=
  { id := 1, roll_number := "21CSE001", name := "Test Student",
    department := Department.CSE, year := 1 }

/-- A second CSE first-year student. -/
def bob : Student :=
  { id := 2, roll_number := "21CSE002", name := "Bob",
    department := Department.CSE, year := 1 }

/-- An ECE first-year student, ineligible for CSE subjects. -/
def eve : Student :=
  { id := 3, roll_number := "21ECE001", name := "Eve",
    department := Department.ECE, year := 1 }

/-- Sample subject matching the test fixture of tests.py lines 68-73. -/
def cs101 : Subject :=
  { id := 1, subject_code := "CS101", subject_name := "Data Structures",
    department := Department.CSE, year := 1 }

/-- A subject with no eligible student in the sample roster. -/
def me201 : Subject :=
  { id := 2, subject_code := "ME201", subject_name := "Thermodynamics",
    department := Department.MECH, year := 2 }

/-- A second CSE first-year subject, with no recorded classes in the
sample ledgers. -/
def cs102 : Subject :=
  { id := 3, subject_code := "CS102", subject_name := "Algorithms",
    department := Department.CSE, year := 1 }

theorem filter_length_partition {α : Type} (l : List α) (p : α → Bool) :
    (l.filter (fun a => !p a)).length + (l.filter p).length = l.length := by
  induction l with
  | nil => rfl
  | cons a rest ih =>
    by_cases h : p a = true
    · simp [List.filter_cons, h, ← ih]
      omega
    · have hf : p a = false := by
        revert h
        cases p a <;> simp
      simp [List.filter_cons, hf, ← ih]
      omega

/-! ### The claims -/

/-- C1: For every subject, the eligible roster computed by the marking
engine consists of exactly those students whose department equals the
department of the subject and whose year equals the year of the subject
(`isEligible` holds iff both fields match), and the roster is ordered by
roll number ascending. -/
theorem computeEligibleRoster_correct (students : List Student)
    (subj : Subject) :
    (computeEligibleRoster students subj).Perm
        (students.filter (fun s => isEligible s subj))
    ∧ (∀ s : Student, s ∈ computeEligibleRoster students subj ↔
        s ∈ students ∧ isEligible s subj = true)
    ∧ (∀ (s : Student) (sb : Subject), isEligible s sb = true ↔
        (s.department = sb.department ∧ s.year = sb.year))
    ∧ (computeEligibleRoster students subj).Sorted
        (fun a b => a.roll_number ≤ b.roll_number) := by
  refine ⟨?_, ?_, ?_, ?_⟩
  · exact List.perm_insertionSort _ _
  · intro s
    unfold computeEligibleRoster
    rw [(List.perm_insertionSort _ _).mem_iff, List.mem_filter]
    exact Iff.rfl
  · intro s sb
    unfold isEligible
    simp
  · unfold computeEligibleRoster
    have hs := List.sorted_insertionSort
      (fun a b : Student => str_le a.roll_number b.roll_number = true)
      (students.filter (fun s => decide (s.department = subj.department) &&
        decide (s.year = subj.year)))
    exact hs.imp (fun h => str_le_le _ _ h)

theorem computeEligibleRoster_correct_witness :
    alice ∈ computeEligibleRoster [eve, bob, alice] cs101
    ∧ isEligible eve cs101 = false := by
  have h := computeEligibleRoster_correct [eve, bob, alice] cs101
  constructor
  · exact (h.2.1 alice).mpr ⟨by decide, by decide⟩
  · by_cases hb : isEligible eve cs101 = true
    · exact absurd ((h.2.2.1 eve cs101).mp hb).1 (by decide)
    · revert hb
      cases isEligible eve cs101 <;> simp

/-- C2: For every (student, subject, date) triple, at most one record
exists in the ledger; a raw insert of a second record for a triple that
already has one is rejected with `IntegrityError`, while marking again
through the engine call `update_or_create` updates the existing record
(`created = false`) instead of failing, and preserves the uniqueness
invariant. -/
theorem unique_triple_upsert (L : Ledger) (s : Student) (subj : Subject)
    (d : Nat) (st : Status) (r₀ : Attendance)
    (hfind : findRecord L (s.id, subj.id, d) = some r₀) :
    objects_create L { student := s, subject := subj, date := d, status := st }
        = Except.error DbError.IntegrityError
    ∧ (update_or_create L s subj d st).2 = false
    ∧ findRecord (update_or_create L s subj d st).1 (s.id, subj.id, d) =
        some { r₀ with status := st }
    ∧ (UniqueTriples L → UniqueTriples (update_or_create L s subj d st).1)
    ∧ (∀ r' : Attendance, hasTriple L (tripleKey r') = false →
        UniqueTriples L → UniqueTriples (L ++ [r'])) := by
  have hh : hasTriple L (s.id, subj.id, d) = true := by
    rw [hasTriple_eq_isSome_findRecord, hfind]
    rfl
  refine ⟨?_, ?_, ?_, ?_, ?_⟩
  · unfold objects_create
    have ht : tripleKey ⟨s, subj, d, st⟩ = (s.id, subj.id, d) := rfl
    rw [ht, if_pos hh]
  · rw [update_or_create_of_hasTriple st hh]
  · rw [update_or_create_of_hasTriple st hh]
    simp only
    rw [findRecord_setStatus_self, hfind]
    rfl
  · intro hu
    rw [update_or_create_of_hasTriple st hh]
    simp only
    unfold UniqueTriples setStatus
    rw [List.pairwise_map]
    refine List.Pairwise.imp ?_ hu
    intro a b hab
    rw [tripleKey_statusUpdate, tripleKey_statusUpdate]
    exact hab
  · intro r' hfresh hu
    unfold UniqueTriples
    rw [List.pairwise_append]
    refine ⟨hu, List.pairwise_singleton _ _, ?_⟩
    intro a ha b hb
    have hb' : b = r' := List.mem_singleton.mp hb
    subst hb'
    have := List.any_eq_false.mp hfresh a ha
    simpa using this

theorem unique_triple_upsert_witness :
    objects_create [⟨alice, cs101, 10, Status.P⟩]
      ⟨alice, cs101, 10, Status.A⟩ = Except.error DbError.IntegrityError :=
  (unique_triple_upsert [⟨alice, cs101, 10, Status.P⟩]
    alice cs101 10 Status.A ⟨alice, cs101, 10, Status.P⟩ (by decide)).1

/-- C9: For every subject with no eligible student, the roster query
returns the empty sequence and marking is a non-erroring no-op: counts
are zero and the ledger is unchanged. -/
theorem empty_roster_noop (students : List Student) (subj : Subject)
    (d : Nat) (post : List (Nat × String)) (L : Ledger)
    (h : ∀ s ∈ students, isEligible s subj = false) :
    computeEligibleRoster students subj = []
    ∧ mark_attendance students subj d post L =
        { ledger := L, success_count := 0, error_count := 0 } := by
  have hfil : students.filter
      (fun s => decide (s.department = subj.department) &&
        decide (s.year = subj.year)) = [] := by
    rw [List.filter_eq_nil_iff]
    intro s hs
    rw [show (decide (s.department = subj.department) &&
      decide (s.year = subj.year)) = isEligible s subj from rfl, h s hs]
    simp
  have hroster : computeEligibleRoster students subj = [] := by
    unfold computeEligibleRoster
    rw [hfil]
    rfl
  refine ⟨hroster, ?_⟩
  unfold mark_attendance mark_attendance_with_races
  rw [hroster]
  rfl

theorem empty_roster_noop_witness :
    computeEligibleRoster [alice, bob] me201 = []
    ∧ mark_attendance [alice, bob] me201 10 [] [] =
        { ledger := [], success_count := 0, error_count := 0 } :=
  empty_roster_noop [alice, bob] me201 10 [] [] (by decide)

/-- C3: marking the same (subject, date) twice leaves the ledger exactly
as a single call with the second presence map would: every record is
fully overwritten by the second call, nothing is merged from the first.
(The whole ledger coincides, hence in particular the rows of that
(subject, date).) Requires only that student primary keys are distinct,
which the database guarantees. -/
theorem mark_attendance_overwrites (students : List Student)
    (subj : Subject) (d : Nat) (post1 post2 : List (Nat × String))
    (L : Ledger) (hnd : (students.map (fun s => s.id)).Nodup) :
    (mark_attendance students subj d post2
        (mark_attendance students subj d post1 L).ledger).ledger =
      (mark_attendance students subj d post2 L).ledger := by
  unfold mark_attendance mark_attendance_with_races
  by_cases he : (computeEligibleRoster students subj).isEmpty = true
  · simp [he]
  · have he' : (computeEligibleRoster students subj).isEmpty = false := by
      revert he
      cases (computeEligibleRoster students subj).isEmpty <;> simp
    rw [if_neg (by simp [he']), if_neg (by simp [he']), if_neg (by simp [he'])]
    rw [foldl_markStep_ledger, foldl_markStep_ledger, foldl_markStep_ledger]
    exact markLedger_overwrite subj d post1 post2 _ L
      (roster_ids_nodup students subj hnd)

theorem mark_attendance_overwrites_witness :
    (mark_attendance [alice, bob] cs101 10 []
        (mark_attendance [alice, bob] cs101 10 [(1, "on")] []).ledger).ledger =
      (mark_attendance [alice, bob] cs101 10 [] []).ledger :=
  mark_attendance_overwrites [alice, bob] cs101 10 [(1, "on")] [] []
    (by decide)

/-- C4: every student of a non-empty eligible roster receives an
upserted record: status P if the presence map holds the value "on" for
the student id, A if the id is missing from the map or mapped to another
value — no eligible student is skipped. -/
theorem mark_attendance_covers_roster (students : List Student)
    (subj : Subject) (d : Nat) (post : List (Nat × String)) (L : Ledger)
    (s : Student) (hnd : (students.map (fun u => u.id)).Nodup)
    (hmem : s ∈ computeEligibleRoster students subj) :
    ∃ r, findRecord (mark_attendance students subj d post L).ledger
        (s.id, subj.id, d) = some r ∧
      r.status = (if post_is_present post s.id then Status.P else Status.A) := by
  unfold mark_attendance mark_attendance_with_races
  have hne : (computeEligibleRoster students subj).isEmpty = false := by
    cases hr : computeEligibleRoster students subj
    · rw [hr] at hmem
      cases hmem
    · rfl
  rw [if_neg (by simp [hne])]
  rw [foldl_markStep_ledger]
  exact findRecord_markLedger_self subj d post (fun _ => false) L
    (roster_ids_nodup students subj hnd) hmem rfl

theorem mark_attendance_covers_roster_witness :
    (findRecord (mark_attendance [alice, bob] cs101 10 [(1, "on")] []).ledger
        (alice.id, cs101.id, 10)).map (fun r => r.status) = some Status.P := by
  obtain ⟨r, h1, h2⟩ := mark_attendance_covers_roster [alice, bob] cs101 10
    [(1, "on")] [] alice (by decide) (by decide)
  rw [h1]
  show some r.status = some Status.P
  rw [h2]
  decide

/-- C5: a uniqueness-race failure on the upsert of one student is converted
into a counted per-student failure: `error_count` counts exactly the
failing students, the remaining students are still processed and keep
their upserted records, and the call returns counts instead of
propagating the conflict. -/
theorem race_failures_counted (students : List Student) (subj : Subject)
    (d : Nat) (post : List (Nat × String)) (fails : Nat → Bool) (L : Ledger)
    (hnd : (students.map (fun u => u.id)).Nodup) :
    (mark_attendance_with_races students subj d post fails L).error_count =
      ((computeEligibleRoster students subj).filter
        (fun s => fails s.id)).length
    ∧ (mark_attendance_with_races students subj d post fails L).success_count =
      ((computeEligibleRoster students subj).filter
        (fun s => !fails s.id)).length
    ∧ ∀ s ∈ computeEligibleRoster students subj, fails s.id = false →
        ∃ r, findRecord
            (mark_attendance_with_races students subj d post fails L).ledger
            (s.id, subj.id, d) = some r ∧ r.status = mark_status post s := by
  unfold mark_attendance_with_races
  by_cases he : (computeEligibleRoster students subj).isEmpty = true
  · have hroster : computeEligibleRoster students subj = [] :=
      List.isEmpty_iff.mp he
    rw [hroster]
    refine ⟨rfl, rfl, ?_⟩
    intro s hs
    cases hs
  · rw [if_neg (by simp [he])]
    refine ⟨?_, ?_, ?_⟩
    · rw [foldl_markStep_error]
      simp
    · rw [foldl_markStep_success]
      simp
    · intro s hs hok
      rw [foldl_markStep_ledger]
      exact findRecord_markLedger_self subj d post fails L
        (roster_ids_nodup students subj hnd) hs hok

theorem race_failures_counted_witness :
    (mark_attendance_with_races [alice, bob] cs101 10 []
        (fun sid => decide (sid = 1)) []).error_count = 1
    ∧ (mark_attendance_with_races [alice, bob] cs101 10 []
        (fun sid => decide (sid = 1)) []).success_count = 1
    ∧ (findRecord (mark_attendance_with_races [alice, bob] cs101 10 []
          (fun sid => decide (sid = 1)) []).ledger
        (bob.id, cs101.id, 10)).map (fun r => r.status) = some Status.A := by
  have h := race_failures_counted [alice, bob] cs101 10 []
    (fun sid => decide (sid = 1)) [] (by decide)
  refine ⟨?_, ?_, ?_⟩
  · rw [h.1]
    decide
  · rw [h.2.1]
    decide
  · obtain ⟨r, h1, h2⟩ := h.2.2 bob (by decide) (by decide)
    rw [h1]
    show some r.status = some Status.A
    rw [h2]
    decide

/-- C10: for every marking call, `success_count + error_count` equals
the size of the eligible roster — each eligible student is counted in
exactly one of the two counters — and no key outside the roster's
(student, subject, date) keys has its record changed. -/
theorem mark_counts_partition (students : List Student) (subj : Subject)
    (d : Nat) (post : List (Nat × String)) (fails : Nat → Bool)
    (L : Ledger) :
    (mark_attendance_with_races students subj d post fails L).success_count +
      (mark_attendance_with_races students subj d post fails L).error_count =
      (computeEligibleRoster students subj).length
    ∧ ∀ k : Nat × Nat × Nat,
        (∀ s ∈ computeEligibleRoster students subj, k ≠ (s.id, subj.id, d)) →
        findRecord
          (mark_attendance_with_races students subj d post fails L).ledger k =
          findRecord L k := by
  unfold mark_attendance_with_races
  by_cases he : (computeEligibleRoster students subj).isEmpty = true
  · have hroster : computeEligibleRoster students subj = [] :=
      List.isEmpty_iff.mp he
    rw [hroster]
    exact ⟨rfl, fun k _ => rfl⟩
  · rw [if_neg (by simp [he])]
    refine ⟨?_, ?_⟩
    · rw [foldl_markStep_success, foldl_markStep_error]
      simp only [Nat.zero_add]
      exact filter_length_partition (computeEligibleRoster students subj)
        (fun s => fails s.id)
    · intro k hk
      rw [foldl_markStep_ledger]
      exact findRecord_markLedger_other subj d post fails L hk

theorem mark_counts_partition_witness :
    (mark_attendance_with_races [alice, bob, eve] cs101 10 [(1, "on")]
        (fun _ => false) [⟨eve, cs101, 10, Status.P⟩]).success_count +
      (mark_attendance_with_races [alice, bob, eve] cs101 10 [(1, "on")]
        (fun _ => false) [⟨eve, cs101, 10, Status.P⟩]).error_count = 2
    ∧ findRecord (mark_attendance_with_races [alice, bob, eve] cs101 10
        [(1, "on")] (fun _ => false) [⟨eve, cs101, 10, Status.P⟩]).ledger
        (eve.id, cs101.id, 10) =
      findRecord [⟨eve, cs101, 10, Status.P⟩] (eve.id, cs101.id, 10) := by
  have h := mark_counts_partition [alice, bob, eve] cs101 10 [(1, "on")]
    (fun _ => false) [⟨eve, cs101, 10, Status.P⟩]
  refine ⟨?_, ?_⟩
  · rw [h.1]
    decide
  · exact h.2 (eve.id, cs101.id, 10) (by decide)

theorem length_filter_le_of_imp {α : Type} (l : List α) (p q : α → Bool)
    (h : ∀ a, p a = true → q a = true) :
    (l.filter p).length ≤ (l.filter q).length := by
  induction l with
  | nil => exact Nat.le_refl 0
  | cons a rest ih =>
    by_cases hp : p a = true
    · simp [List.filter_cons, hp, h a hp]
      omega
    · have hp' : p a = false := by
        revert hp
        cases p a <;> simp
      by_cases hq : q a = true
      · simp [List.filter_cons, hp', hq]
        omega
      · have hq' : q a = false := by
          revert hq
          cases q a <;> simp
        simp [List.filter_cons, hp', hq']
        exact ih

theorem percentage_spec_eq_ite (p t : Nat) :
    (if t = 0 then (0 : ℚ)
     else pyround2 (((p : ℚ) / (t : ℚ)) * 100)) = percentage_spec p t := by
  unfold percentage_spec
  by_cases h : t = 0
  · rw [if_pos h, if_pos h]
  · rw [if_neg h, if_neg h]
    congr 1
    ring

theorem percentage_spec_eq_ite_gt (p t : Nat) :
    (if t > 0 then pyround2 (((p : ℚ) / (t : ℚ)) * 100)
     else (0 : ℚ)) = percentage_spec p t := by
  rw [← percentage_spec_eq_ite p t]
  by_cases h : t = 0
  · rw [if_pos h, if_neg (by omega)]
  · rw [if_neg h, if_pos (by omega)]

/-- C6: every percentage in the system is 0 when the total count is 0
(no division by zero), equals `round(100 * present / total, 2)` under
one fixed rounding mode (round half to even, the Python builtin `round`)
when the total is positive, and all four computation sites —
`Student.get_attendance_percentage` with and without a subject filter,
the dashboard, and the `attendance_percentage` view — agree with the one
common function `percentage_spec`. -/
theorem percentage_consistent :
    (∀ p : Nat, percentage_spec p 0 = 0)
    ∧ (∀ p t : Nat, 0 < t →
        percentage_spec p t = pyround2 (100 * (p : ℚ) / (t : ℚ)))
    ∧ (∀ (L : Ledger) (student : Student),
        get_attendance_percentage L student none =
          percentage_spec (present_records L student) (total_records L student))
    ∧ (∀ (L : Ledger) (student : Student) (subj : Subject),
        get_attendance_percentage L student (some subj) =
          percentage_spec (present_records_subject L student subj)
            (total_records_subject L student subj))
    ∧ (∀ (L : Ledger) (student : Student),
        dashboard_attendance_percentage L student =
          percentage_spec (present_records L student) (total_records L student))
    ∧ (∀ (L : Ledger) (student : Student),
        (attendance_percentage_entry L student).percentage =
          percentage_spec (present_records L student) (total_records L student))
    ∧ (∀ (subjects : List Subject) (L : Ledger) (student : Student),
        ∀ e ∈ dashboard_subject_attendance subjects L student,
          e.percentage = percentage_spec e.present e.total) := by
  refine ⟨?_, ?_, ?_, ?_, ?_, ?_, ?_⟩
  · intro p
    rfl
  · intro p t ht
    unfold percentage_spec
    rw [if_neg (by omega)]
  · intro L student
    exact percentage_spec_eq_ite (present_records L student)
      (total_records L student)
  · intro L student subj
    exact percentage_spec_eq_ite (present_records_subject L student subj)
      (total_records_subject L student subj)
  · intro L student
    exact percentage_spec_eq_ite_gt (present_records L student)
      (total_records L student)
  · intro L student
    exact percentage_spec_eq_ite_gt (present_records L student)
      (total_records L student)
  · intro subjects L student e he
    obtain ⟨sb, _, rfl⟩ := List.mem_map.mp he
    exact percentage_spec_eq_ite_gt (present_records_subject L student sb)
      (total_records_subject L student sb)

theorem percentage_consistent_witness :
    percentage_spec 1 0 = 0
    ∧ percentage_spec 1 8 = pyround2 (100 * (1 : ℚ) / (8 : ℚ))
    ∧ get_attendance_percentage [⟨alice, cs101, 10, Status.P⟩] alice none =
        percentage_spec 1 1 := by
  have h := percentage_consistent
  refine ⟨h.1 1, h.2.1 1 8 (by norm_num), ?_⟩
  rw [h.2.2.1 [⟨alice, cs101, 10, Status.P⟩] alice]
  rfl

/-- C7: the per-subject breakdown has exactly one entry for every
subject sharing the department and year of the student — including subjects
with zero recorded classes, whose percentage is 0 — ordered by subject
code, and in each entry the absent count is derived as total minus present. -/
theorem perSubjectBreakdown_correct (subjects : List Subject) (L : Ledger)
    (student : Student) :
    ((dashboard_subject_attendance subjects L student).map
        (fun e => e.subject)).Perm
      (subjects.filter (fun sb => decide (sb.department = student.department)
        && decide (sb.year = student.year)))
    ∧ (∀ sb : Subject,
        (sb ∈ (dashboard_subject_attendance subjects L student).map
          (fun e => e.subject)) ↔
        (sb ∈ subjects ∧ sb.department = student.department ∧
          sb.year = student.year))
    ∧ (dashboard_subject_attendance subjects L student).Sorted
        (fun e1 e2 => e1.subject.subject_code ≤ e2.subject.subject_code)
    ∧ (∀ e ∈ dashboard_subject_attendance subjects L student,
        e.absent = e.total - e.present ∧ e.present ≤ e.total ∧
          (e.total = 0 → e.percentage = 0)) := by
  have hcomp : ((fun e : SubjectEntry => e.subject) ∘ subject_entry L student)
      = id := funext fun sb => rfl
  have hmap : (dashboard_subject_attendance subjects L student).map
      (fun e => e.subject) =
      (subjects.filter (fun sb => decide (sb.department = student.department)
        && decide (sb.year = student.year))).insertionSort
        (fun a b => str_le a.subject_code b.subject_code = true) := by
    unfold dashboard_subject_attendance
    rw [List.map_map, hcomp, List.map_id]
  refine ⟨?_, ?_, ?_, ?_⟩
  · rw [hmap]
    exact List.perm_insertionSort _ _
  · intro sb
    rw [hmap, (List.perm_insertionSort _ _).mem_iff, List.mem_filter]
    simp
  · unfold dashboard_subject_attendance
    have hs := List.sorted_insertionSort
      (fun a b : Subject => str_le a.subject_code b.subject_code = true)
      (subjects.filter (fun sb => decide (sb.department = student.department)
        && decide (sb.year = student.year)))
    exact List.pairwise_map.mpr (hs.imp (fun h => str_le_le _ _ h))
  · intro e he
    obtain ⟨sb, _, rfl⟩ := List.mem_map.mp he
    refine ⟨rfl, ?_, ?_⟩
    · unfold subject_entry present_records_subject total_records_subject
      simp only
      refine length_filter_le_of_imp L _ _ ?_
      intro r hr
      exact (Bool.and_eq_true_iff.mp hr).1
    · intro h0
      have h0' : total_records_subject L student sb = 0 := h0
      unfold subject_entry
      simp [h0']

theorem perSubjectBreakdown_correct_witness :
    (subject_entry [⟨alice, cs101, 10, Status.P⟩] alice cs102).percentage
      = 0 := by
  have h := perSubjectBreakdown_correct [me201, cs102, cs101]
    [⟨alice, cs101, 10, Status.P⟩] alice
  exact (h.2.2.2 (subject_entry [⟨alice, cs101, 10, Status.P⟩] alice cs102)
    (List.mem_map_of_mem (subject_entry [⟨alice, cs101, 10, Status.P⟩] alice)
      (by decide))).2.2 (by decide)

/-- C8 counterexample: a raw ORM insert (`Attendance.objects.create`,
the direct-persist path the tests of the repository use) persists a
record linking a student and a subject of different departments without
any error — `Attendance.clean` is only run by callers of `full_clean`,
so the roster-mismatch check does not guard every direct persist. -/
theorem objects_create_bypasses_eligibility :
    eve.department ≠ cs101.department
    ∧ objects_create [] ⟨eve, cs101, 10, Status.P⟩ =
        Except.ok [⟨eve, cs101, 10, Status.P⟩] := by
  constructor
  · decide
  · rfl

/-- C8 (amended): a direct persist through the validated save path —
the admin method `save_model`, which runs `full_clean` and hence
`Attendance.clean` — fails with the department/year validation error
before the record is persisted, leaving the ledger unchanged; persists
that bypass `full_clean` (raw `objects.create`) are not guarded by this
check. -/
theorem save_model_rejects_mismatch (L : Ledger) (r : Attendance)
    (h : r.student.department ≠ r.subject.department ∨
      r.student.year ≠ r.subject.year) :
    ∃ e, clean r = Except.error e ∧ save_model L r = (L, some e) := by
  unfold save_model full_clean clean
  by_cases hd : r.student.department = r.subject.department
  · have hy : r.student.year ≠ r.subject.year := by
      rcases h with h | h
      · exact absurd hd h
      · exact h
    refine ⟨"Student and Subject must be from the same year", ?_, ?_⟩
    · rw [if_neg (fun hne => hne hd), if_pos hy]
    · rw [if_neg (fun hne => hne hd), if_pos hy]
  · refine ⟨"Student and Subject must be from the same department", ?_, ?_⟩
    · rw [if_pos hd]
    · rw [if_pos hd]

theorem save_model_rejects_mismatch_witness :
    save_model [] ⟨eve, cs101, 10, Status.P⟩ =
      ([], some "Student and Subject must be from the same department") := by
  obtain ⟨e, h1, h2⟩ := save_model_rejects_mismatch []
    ⟨eve, cs101, 10, Status.P⟩ (Or.inl (by decide))
  have h3 : clean ⟨eve, cs101, 10, Status.P⟩ =
      Except.error "Student and Subject must be from the same department" :=
    rfl
  rw [h3] at h1
  injection h1 with he
  rw [h2, ← he]

end AttendanceManagement
